import Mathlib

/-!
Verification development for the Code_duel_backend leaderboard core:
the two-tier leaderboard cache (`src/services/cache.service.js`), the
durable-cache (Redis) client configuration (`src/config/redis.js`), and the
ranking / aggregation logic of the dashboard controller
(`getChallengeLeaderboard`, `getChallengeProgress`).

Modelling conventions:
* Time is milliseconds as `Nat` (`Date.now()`), threaded explicitly.
* The functions of `cache.service.js` are `async` and may in principle
  reject; they are embedded as `Except Unit`-returning functions in which a
  thrown durable-cache (or `JSON.parse`) error surfaces as `.error ()` at the
  point of the `await`/call and the surrounding `try/catch` is translated
  literally.  "Never raises" is then `Except.isOk` of the whole body.
* The durable cache service (Redis) is an external collaborator; its store is
  modelled as a key/value map with per-key `expiresAt` implementing the
  `SET key val EX ttl` contract, and a `RedisEnv` record carries the
  readiness flag plus fault-injection flags for the three commands.
* Stored payloads ride through `JSON.stringify`/`JSON.parse`.  On the values
  this program ever stores (plain arrays of records) stringify-then-parse is
  the identity, so the serialized string is modelled by its parse result
  `Option Payload`: `some v` stands for the (non-empty) JSON text of the
  entry list `v`, and `none` stands for a non-empty malformed text whose
  `JSON.parse` throws.  An absent reply from the durable cache is modelled
  one level up (`redisGet` answering `none`), matching the `if (data)`
  truthiness test on a `null` reply.
-/

namespace CodeDuel

/-- Model of `LeaderboardEntry`: the record built per member in
`getChallengeLeaderboard` (dashboard controller).  `completionRate` is a
`String` because the source stores `completionRate.toFixed(2)`. -/
structure LeaderboardEntry where
  username : String
  leetcodeUsername : String
  currentStreak : Nat
  longestStreak : Nat
  totalPenalties : ℚ
  completedDays : Nat
  totalDays : Nat
  completionRate : String
deriving DecidableEq, Repr

abbrev EntryList := List LeaderboardEntry

/-- Quotient model of the serialized leaderboard payload stored in the
durable cache: `some v` is the JSON text of `v`, `none` a malformed text. -/
abbrev Payload := EntryList

/-- Model of `JSON.stringify` on a leaderboard array: always yields well-formed text. -/
def jsonStringify (v : EntryList) : Option Payload := some v

/-- Model of `JSON.parse` on a stored payload: succeeds exactly on well-formed text,
throws (`.error`) on malformed text. -/
def jsonParse : Option Payload → Except Unit EntryList
  | some v => .ok v
  | none => .error ()

/-- One record of the in-memory fallback cache (`memoryCache` Map entry):
`{ data, expiresAt: Date.now() + ttl * 1000 }`. -/
structure MemEntry where
  data : EntryList
  expiresAt : Nat
deriving DecidableEq

/-- The mutable state the cache service can reach: the process-local
`memoryCache` Map and the external durable store.  The durable store keeps,
per key, the stored text (quotiented, see `Payload`) and its `EX` expiry. -/
structure CacheState where
  memoryCache : String → Option MemEntry
  redisStore : String → Option (Option Payload × Nat)

/-- Connection/fault environment of the durable cache client: `ready` is
`isRedisReady()`, and each `…Fails` flag makes the corresponding command
throw (network error) for the duration of a call. -/
structure RedisEnv where
  ready : Bool
  getFails : Bool
  setFails : Bool
  delFails : Bool
deriving DecidableEq

/-- The constant `DEFAULT_TTL = 60` seconds. -/
def DEFAULT_TTL : Nat := 60

/-- Model of `buildKey(challengeId)`, i.e. the cache-prefix constant `"leaderboard:"`
followed by the challenge id. -/
def buildKey (challengeId : String) : String := "leaderboard:" ++ challengeId

/-- The value the durable store answers for `key` at time `now`: the stored
text while `now` is within the `EX` window, absent otherwise. -/
def redisLive (st : CacheState) (now : Nat) (key : String) : Option (Option Payload) :=
  match st.redisStore key with
  | none => none
  | some (p, exp) => if now ≤ exp then some p else none

/-- Durable-cache `GET` (external collaborator): throws when the injected
read fault is active, else answers `redisLive`. -/
def redisGet (env : RedisEnv) (st : CacheState) (now : Nat) (key : String) :
    Except Unit (Option (Option Payload)) :=
  if env.getFails then .error () else .ok (redisLive st now key)

/-- Durable-cache `SET key val EX ttl` (external collaborator): throws when
the injected write fault is active, else records the payload with expiry
`now + ttl * 1000`. -/
def redisSet (env : RedisEnv) (st : CacheState) (now : Nat) (key : String)
    (val : Option Payload) (ttl : Nat) : Except Unit CacheState :=
  if env.setFails then .error ()
  else .ok { st with
    redisStore := fun k => if k = key then some (val, now + ttl * 1000) else st.redisStore k }

/-- Durable-cache `DEL key` (external collaborator): throws when the injected
delete fault is active, else removes the key. -/
def redisDel (env : RedisEnv) (st : CacheState) (key : String) : Except Unit CacheState :=
  if env.delFails then .error ()
  else .ok { st with redisStore := fun k => if k = key then none else st.redisStore k }

/-- Model of `memoryGet(key)`: answer the entry's data unless the key is unknown or
`Date.now() > entry.expiresAt`, in which case the stale record is evicted
(lazy expiry) and `null` is returned. -/
def memoryGet (st : CacheState) (now : Nat) (key : String) :
    Option EntryList × CacheState :=
  match st.memoryCache key with
  | none => (none, st)
  | some entry =>
    if now > entry.expiresAt then
      (none, { st with memoryCache := fun k => if k = key then none else st.memoryCache k })
    else (some entry.data, st)

/-- Model of `memorySet(key, data, ttl)`: overwrite the key with
`{ data, expiresAt: Date.now() + ttl * 1000 }`. -/
def memorySet (st : CacheState) (now : Nat) (key : String) (data : EntryList)
    (ttl : Nat) : CacheState :=
  { st with memoryCache := fun k =>
      if k = key then some ⟨data, now + ttl * 1000⟩ else st.memoryCache k }

/-- Model of `memoryDel(key)`. -/
def memoryDel (st : CacheState) (key : String) : CacheState :=
  { st with memoryCache := fun k => if k = key then none else st.memoryCache k }

/-- The tail of `getLeaderboardCache` after the Redis block: read the
in-memory fallback, answer its value on a hit and `null` on a miss. -/
def memoryFallback (st : CacheState) (now : Nat) (key : String) :
    Except Unit (Option EntryList × CacheState) :=
  match memoryGet st now key with
  | (some memData, st2) => .ok (some memData, st2)
  | (none, st2) => .ok (none, st2)

/-- Model of `getLeaderboardCache(challengeId)`: Redis first when ready (a hit returns
the parsed value, a genuine miss returns `null` without any fallback; a
thrown read or parse error is caught), then the in-memory fallback. -/
def getLeaderboardCache (env : RedisEnv) (st : CacheState) (now : Nat)
    (challengeId : String) : Except Unit (Option EntryList × CacheState) :=
  let key := buildKey challengeId
  if env.ready then
    match redisGet env st now key with
    | .ok (some data) =>
      match jsonParse data with
      | .ok v => .ok (some v, st)
      | .error _ => memoryFallback st now key
    | .ok none => .ok (none, st)
    | .error _ => memoryFallback st now key
  else memoryFallback st now key

/-- Model of `setLeaderboardCache(challengeId, data, ttl)`: always write the
in-memory fallback first, then best-effort write the durable cache when
ready, swallowing any thrown error. -/
def setLeaderboardCache (env : RedisEnv) (st : CacheState) (now : Nat)
    (challengeId : String) (data : EntryList) (ttl : Nat) :
    Except Unit CacheState :=
  let key := buildKey challengeId
  let st1 := memorySet st now key data ttl
  if env.ready then
    match redisSet env st1 now key (jsonStringify data) ttl with
    | .ok st2 => .ok st2
    | .error _ => .ok st1
  else .ok st1

/-- Model of `invalidateLeaderboardCache(challengeId)`: always clear the in-memory
fallback, then best-effort `DEL` on the durable cache when ready, swallowing
any thrown error. -/
def invalidateLeaderboardCache (env : RedisEnv) (st : CacheState)
    (challengeId : String) : Except Unit CacheState :=
  let key := buildKey challengeId
  let st1 := memoryDel st key
  if env.ready then
    match redisDel env st1 key with
    | .ok st2 => .ok st2
    | .error _ => .ok st1
  else .ok st1

/-- The value a `getLeaderboardCache` call answers (state projected away). -/
def lbValue (env : RedisEnv) (st : CacheState) (now : Nat)
    (challengeId : String) : Except Unit (Option EntryList) :=
  (getLeaderboardCache env st now challengeId).map Prod.fst

/-! ## Ranking & aggregation engine (dashboard controller) -/

/-- One `ChallengeMember` row joined with its `user` selection, as consumed by
`getChallengeLeaderboard`. -/
structure Membership where
  username : String
  leetcodeUsername : String
  currentStreak : Nat
  longestStreak : Nat
  totalPenalties : ℚ
deriving DecidableEq, Repr

/-- One `DailyResult` row (the fields the aggregation reads). -/
structure DailyResult where
  date : Nat
  completed : Bool
  submissionsCount : Nat
  problemsSolved : Nat
deriving DecidableEq, Repr

/-- The three-key order of the leaderboard query:
`orderBy: [{currentStreak: "desc"}, {longestStreak: "desc"},
{totalPenalties: "asc"}]`. -/
def memberOrder (a b : Membership) : Prop :=
  b.currentStreak < a.currentStreak ∨
    (a.currentStreak = b.currentStreak ∧
      (b.longestStreak < a.longestStreak ∨
        (a.longestStreak = b.longestStreak ∧ a.totalPenalties ≤ b.totalPenalties)))

instance : DecidableRel memberOrder := fun a b => by
  unfold memberOrder; infer_instance

instance : IsTotal Membership memberOrder where
  total a b := by
    unfold memberOrder
    rcases Nat.lt_trichotomy a.currentStreak b.currentStreak with h | h | h
    · exact Or.inr (Or.inl h)
    · rcases Nat.lt_trichotomy a.longestStreak b.longestStreak with h2 | h2 | h2
      · exact Or.inr (Or.inr ⟨h.symm, Or.inl h2⟩)
      · rcases le_total a.totalPenalties b.totalPenalties with hp | hp
        · exact Or.inl (Or.inr ⟨h, Or.inr ⟨h2, hp⟩⟩)
        · exact Or.inr (Or.inr ⟨h.symm, Or.inr ⟨h2.symm, hp⟩⟩)
      · exact Or.inl (Or.inr ⟨h, Or.inl h2⟩)
    · exact Or.inl (Or.inl h)

instance : IsTrans Membership memberOrder where
  trans a b c hab hbc := by
    unfold memberOrder at *
    rcases hab with h1 | ⟨e1, hab'⟩
    · rcases hbc with h2 | ⟨e2, _⟩
      · exact Or.inl (Nat.lt_trans h2 h1)
      · exact Or.inl (e2 ▸ h1)
    · rcases hbc with h2 | ⟨e2, hbc'⟩
      · exact Or.inl (by rw [e1]; exact h2)
      · refine Or.inr ⟨e1.trans e2, ?_⟩
        rcases hab' with g1 | ⟨f1, hab''⟩
        · rcases hbc' with g2 | ⟨f2, _⟩
          · exact Or.inl (Nat.lt_trans g2 g1)
          · exact Or.inl (f2 ▸ g1)
        · rcases hbc' with g2 | ⟨f2, hbc''⟩
          · exact Or.inl (by rw [f1]; exact g2)
          · exact Or.inr ⟨f1.trans f2, le_trans hab'' hbc''⟩

/-- The ordered member list the persistence collaborator returns for the
leaderboard query (`findMany` with the three-key `orderBy`), realized as a
stable sort by `memberOrder`. -/
def sortMembers (members : List Membership) : List Membership :=
  List.insertionSort memberOrder members

/-- The count `completedDays = results.filter(r => r.completed).length`. -/
def completedCount (results : List DailyResult) : Nat :=
  (results.filter fun r => r.completed).length

/-- The rate `totalDays > 0 ? (completedDays / totalDays) * 100 : 0`, exactly. -/
def rawRate (completedDays totalDays : Nat) : ℚ :=
  if 0 < totalDays then ((completedDays : ℚ) / (totalDays : ℚ)) * 100 else 0

/-- The number of hundredths `toFixed(2)` keeps of `q`: `⌊q * 100 + 1/2⌋`
(round half up), written in integer arithmetic on the reduced fraction so
that it evaluates by kernel reduction (`Int` division is euclidean, hence
floor division here since the divisor is positive). -/
def roundCents (q : ℚ) : ℤ := (200 * q.num + (q.den : ℤ)) / (2 * (q.den : ℤ))

/-- Rounding to two decimal places (half up), the numeric content of
`toFixed(2)` on the non-negative rates this program produces. -/
def round2 (q : ℚ) : ℚ := (roundCents q : ℚ) / 100

/-- Two-digit zero-padded rendering of a number below 100. -/
def pad2 (m : Nat) : String := if m < 10 then "0" ++ toString m else toString m

/-- Model of `Number.prototype.toFixed(2)` on the non-negative rates this program
produces: round half up to hundredths and render with exactly two fractional
digits. -/
def toFixed2 (q : ℚ) : String :=
  let n : Nat := (roundCents q).toNat
  toString (n / 100) ++ "." ++ pad2 (n % 100)

/-- The per-member record built inside `getChallengeLeaderboard`. -/
def mkLeaderboardEntry (m : Membership) (results : List DailyResult) :
    LeaderboardEntry :=
  let totalDays := results.length
  let completedDays := completedCount results
  let completionRate := rawRate completedDays totalDays
  { username := m.username
    leetcodeUsername := m.leetcodeUsername
    currentStreak := m.currentStreak
    longestStreak := m.longestStreak
    totalPenalties := m.totalPenalties
    completedDays := completedDays
    totalDays := totalDays
    completionRate := toFixed2 completionRate }

/-- The leaderboard `getChallengeLeaderboard` computes on a cache miss:
members as ordered by the persistence query, each mapped to its entry, with
`resultsOf m` the member's `DailyResult` rows. -/
def buildLeaderboard (members : List Membership)
    (resultsOf : Membership → List DailyResult) : List LeaderboardEntry :=
  (sortMembers members).map fun m => mkLeaderboardEntry m (resultsOf m)

/-- The `stats` record of `getChallengeProgress`. -/
structure ProgressStats where
  currentStreak : Nat
  longestStreak : Nat
  totalPenalties : ℚ
  totalDays : Nat
  completedDays : Nat
  failedDays : Nat
  completionRate : String
deriving DecidableEq, Repr

/-- The statistics block computed by `getChallengeProgress` from one
membership's daily results. -/
def progressStats (m : Membership) (dailyResults : List DailyResult) :
    ProgressStats :=
  let totalDays := dailyResults.length
  let completedDays := completedCount dailyResults
  let failedDays := totalDays - completedDays
  let completionRate := rawRate completedDays totalDays
  { currentStreak := m.currentStreak
    longestStreak := m.longestStreak
    totalPenalties := m.totalPenalties
    totalDays := totalDays
    completedDays := completedDays
    failedDays := failedDays
    completionRate := toFixed2 completionRate }

/-! ## Durable cache client configuration (`src/config/redis.js`) -/

/-- Model of `retryStrategy(times)` of the ioredis client options: stop (return
`null`) once `times > 3`, else retry after `Math.min(times * 500, 2000)`
milliseconds. -/
def retryStrategy (times : Nat) : Option Nat :=
  if times > 3 then none else some (min (times * 500) 2000)

/-- Connection lifecycle events the client subscribes to. -/
inductive ConnEvent where
  | connect
  | error
  | close
deriving DecidableEq

/-- The `isConnected` flag after a sequence of lifecycle events, per the
registered handlers: `connect` sets it true, `error` and `close` set it
false. -/
def isConnectedAfter : Bool → List ConnEvent → Bool
  | b, [] => b
  | _, ConnEvent.connect :: es => isConnectedAfter true es
  | _, ConnEvent.error :: es => isConnectedAfter false es
  | _, ConnEvent.close :: es => isConnectedAfter false es

/-- Model of `isRedisReady() = redisClient !== null && isConnected`. -/
def isRedisReady (clientExists isConnected : Bool) : Bool :=
  clientExists && isConnected

/-! ## Concrete fixtures for witnesses and counterexamples -/

/-- The empty cache state (fresh process). -/
def emptyState : CacheState := { memoryCache := fun _ => none, redisStore := fun _ => none }

/-- Client never ready (durable cache down). -/
def envDown : RedisEnv := ⟨false, false, false, false⟩

/-- Client ready, every command succeeds. -/
def envUp : RedisEnv := ⟨true, false, false, false⟩

/-- Client ready but every command throws. -/
def envAllFail : RedisEnv := ⟨true, true, true, true⟩

/-- Client ready, `SET` throws, `GET` and `DEL` succeed. -/
def envSetThrows : RedisEnv := ⟨true, false, true, false⟩

/-- A sample leaderboard payload. -/
def demoEntries : EntryList :=
  [{ username := "alice", leetcodeUsername := "alice_lc", currentStreak := 5,
     longestStreak := 10, totalPenalties := 2, completedDays := 3, totalDays := 4,
     completionRate := "75.00" }]

/-- A state whose fallback store holds `demoEntries` for challenge `c1`
(fresh until t = 100000 ms) and whose durable store is empty. -/
def stMem : CacheState :=
  { memoryCache := fun k => if k = buildKey ("c1") then some ⟨demoEntries, 100000⟩ else none
    redisStore := fun _ => none }

/-- Like `stMem`, but the durable store holds a malformed payload for `c1`. -/
def stMalformed : CacheState :=
  { memoryCache := fun k => if k = buildKey ("c1") then some ⟨demoEntries, 100000⟩ else none
    redisStore := fun k => if k = buildKey ("c1") then some (none, 100000) else none }

deriving instance DecidableEq for Except

/-! ## Supporting lemmas -/

theorem roundCents_eq_floor (q : ℚ) : roundCents q = ⌊q * 100 + 1 / 2⌋ := by
  have hd0 : (0 : ℚ) < (q.den : ℚ) := by exact_mod_cast q.pos
  have hd : (q.den : ℚ) ≠ 0 := ne_of_gt hd0
  have hq : (q.num : ℚ) = q * (q.den : ℚ) := (div_eq_iff hd).mp (Rat.num_div_den q)
  have h : q * 100 + 1 / 2 = ((200 * q.num + (q.den : ℤ) : ℤ) : ℚ) / ((2 * q.den : ℕ) : ℚ) := by
    push_cast
    field_simp
    rw [hq]
    ring
  rw [h, Rat.floor_intCast_div_natCast]
  unfold roundCents
  push_cast
  rfl

theorem pad2_length_two : ∀ m, m < 100 → (pad2 m).length = 2 := by decide

theorem buildKey_inj {a b : String} (h : buildKey a = buildKey b) : a = b := by
  unfold buildKey at h
  have hd := congrArg String.data h
  simp only [String.data_append] at hd
  exact String.ext (List.append_cancel_left hd)

theorem memoryFallback_eq (st : CacheState) (now : Nat) (key : String) :
    memoryFallback st now key = .ok (memoryGet st now key) := by
  rcases h : memoryGet st now key with ⟨v, st2⟩
  rcases v with _ | d <;> simp [memoryFallback, h]

theorem get_degraded (env : RedisEnv) (st : CacheState) (now : Nat) (id : String)
    (h : env.ready = false ∨ env.getFails = true) :
    getLeaderboardCache env st now id = .ok (memoryGet st now (buildKey id)) := by
  rcases h with h | h
  · simp [getLeaderboardCache, h, memoryFallback_eq]
  · by_cases hr : env.ready = true
    · simp [getLeaderboardCache, hr, redisGet, h, memoryFallback_eq]
    · simp [getLeaderboardCache, hr, memoryFallback_eq]

theorem memoryGet_fst_congr {st st' : CacheState} (now : Nat) (key : String)
    (hm : st'.memoryCache key = st.memoryCache key) :
    (memoryGet st' now key).1 = (memoryGet st now key).1 := by
  unfold memoryGet
  rw [hm]
  rcases h : st.memoryCache key with _ | e
  · rfl
  · by_cases hx : now > e.expiresAt <;> simp [hx]

theorem redisLive_congr {st st' : CacheState} (now : Nat) (key : String)
    (hr : st'.redisStore key = st.redisStore key) :
    redisLive st' now key = redisLive st now key := by
  unfold redisLive
  rw [hr]

theorem lbValue_eq (env : RedisEnv) (st : CacheState) (now : Nat) (id : String) :
    lbValue env st now id =
      if env.ready = true ∧ env.getFails = false then
        match redisLive st now (buildKey id) with
        | some p =>
          match jsonParse p with
          | .ok v => .ok (some v)
          | .error _ => .ok (memoryGet st now (buildKey id)).1
        | none => .ok none
      else .ok (memoryGet st now (buildKey id)).1 := by
  unfold lbValue getLeaderboardCache redisGet
  by_cases hready : env.ready = true
  · by_cases hget : env.getFails = true
    · simp [hready, hget, memoryFallback_eq, Except.map]
    · simp only [hready, hget, and_true, and_false, if_true, if_false, ite_true,
        ite_false, Bool.false_eq_true, true_and, eq_self_iff_true, and_self]
      rcases hl : redisLive st now (buildKey id) with _ | p
      · simp [hl, Except.map, hready, hget]
      · rcases p with _ | v <;>
          simp [hl, jsonParse, Except.map, hready, hget, memoryFallback_eq]
  · simp [hready, memoryFallback_eq, Except.map]

theorem set_state (env : RedisEnv) (st : CacheState) (now : Nat) (id : String)
    (data : EntryList) (ttl : Nat) :
    setLeaderboardCache env st now id data ttl =
      .ok { memoryCache := fun k =>
              if k = buildKey id then some ⟨data, now + ttl * 1000⟩ else st.memoryCache k
            redisStore := fun k =>
              if env.ready = true ∧ env.setFails = false ∧ k = buildKey id then
                some (jsonStringify data, now + ttl * 1000)
              else st.redisStore k } := by
  unfold setLeaderboardCache redisSet memorySet
  by_cases hr : env.ready = true <;> by_cases hs : env.setFails = true <;>
    simp [hr, hs]

theorem invalidate_state (env : RedisEnv) (st : CacheState) (id : String) :
    invalidateLeaderboardCache env st id =
      .ok { memoryCache := fun k =>
              if k = buildKey id then none else st.memoryCache k
            redisStore := fun k =>
              if env.ready = true ∧ env.delFails = false ∧ k = buildKey id then none
              else st.redisStore k } := by
  unfold invalidateLeaderboardCache redisDel memoryDel
  by_cases hr : env.ready = true <;> by_cases hd : env.delFails = true <;>
    simp [hr, hd]

theorem lbValue_congr (env : RedisEnv) {st st' : CacheState} (now : Nat) (id : String)
    (hm : st'.memoryCache (buildKey id) = st.memoryCache (buildKey id))
    (hr : st'.redisStore (buildKey id) = st.redisStore (buildKey id)) :
    lbValue env st' now id = lbValue env st now id := by
  rw [lbValue_eq, lbValue_eq, redisLive_congr now (buildKey id) hr,
    memoryGet_fst_congr now (buildKey id) hm]

theorem completedCount_le (rs : List DailyResult) : completedCount rs ≤ rs.length :=
  List.length_filter_le _ _

theorem rawRate_nonneg (c t : Nat) : 0 ≤ rawRate c t := by
  unfold rawRate
  split
  · positivity
  · exact le_refl 0

theorem rawRate_le_100 {c t : Nat} (h : c ≤ t) : rawRate c t ≤ 100 := by
  unfold rawRate
  split
  · rename_i ht
    have ht0 : (0 : ℚ) < (t : ℚ) := by exact_mod_cast ht
    have hdiv : (c : ℚ) / (t : ℚ) ≤ 1 := by
      rw [div_le_one ht0]
      exact_mod_cast h
    have := mul_le_mul_of_nonneg_right hdiv (by norm_num : (0 : ℚ) ≤ 100)
    simpa using this
  · norm_num

theorem round2_nonneg {q : ℚ} (h : 0 ≤ q) : 0 ≤ round2 q := by
  unfold round2
  apply div_nonneg _ (by norm_num : (0 : ℚ) ≤ 100)
  have hfl : (0 : ℤ) ≤ ⌊q * 100 + 1 / 2⌋ :=
    Int.floor_nonneg.mpr (add_nonneg (mul_nonneg h (by norm_num)) (by norm_num))
  rw [roundCents_eq_floor]
  exact_mod_cast hfl

theorem round2_le_100 {q : ℚ} (h : q ≤ 100) : round2 q ≤ 100 := by
  unfold round2
  rw [div_le_iff₀ (by norm_num : (0 : ℚ) < 100)]
  have hx : (⌊q * 100 + 1 / 2⌋ : ℚ) < 10001 :=
    lt_of_le_of_lt (Int.floor_le _) (by linarith)
  have hxz : ⌊q * 100 + 1 / 2⌋ < (10001 : ℤ) := by exact_mod_cast hx
  have h1 : ⌊q * 100 + 1 / 2⌋ ≤ (10000 : ℤ) := by omega
  rw [roundCents_eq_floor]
  calc ((⌊q * 100 + 1 / 2⌋ : ℤ) : ℚ) ≤ (10000 : ℚ) := by exact_mod_cast h1
    _ = 100 * 100 := by norm_num

/-! ## Claims -/

/-- C2: for every set of input memberships (and any per-member daily-result
history), the leaderboard produced by the ranking step is totally ordered:
every adjacent pair (a, b) has a.currentStreak > b.currentStreak, or equal
currentStreak and a.longestStreak > b.longestStreak, or equal on both and
a.totalPenalties ≤ b.totalPenalties; in particular a member with
currentStreak 5, longestStreak 10, totalPenalties 2 is placed before one
with currentStreak 5, longestStreak 10, totalPenalties 5. -/
theorem C2_ranking_total_order (members : List Membership)
    (resultsOf : Membership → List DailyResult) :
    List.Chain' (fun a b : LeaderboardEntry =>
        b.currentStreak < a.currentStreak ∨
        (a.currentStreak = b.currentStreak ∧ b.longestStreak < a.longestStreak) ∨
        (a.currentStreak = b.currentStreak ∧ a.longestStreak = b.longestStreak ∧
          a.totalPenalties ≤ b.totalPenalties))
      (buildLeaderboard members resultsOf) ∧
    (buildLeaderboard [⟨"bob", "bob_lc", 5, 10, 5⟩, ⟨"alice", "alice_lc", 5, 10, 2⟩]
        resultsOf).map (fun e => (e.username, e.totalPenalties)) =
      [("alice", 2), ("bob", 5)] := by
  constructor
  · have hs : List.Pairwise memberOrder (sortMembers members) :=
      List.sorted_insertionSort memberOrder members
    have hp : List.Pairwise
        (fun a b : Membership =>
          b.currentStreak < a.currentStreak ∨
          (a.currentStreak = b.currentStreak ∧ b.longestStreak < a.longestStreak) ∨
          (a.currentStreak = b.currentStreak ∧ a.longestStreak = b.longestStreak ∧
            a.totalPenalties ≤ b.totalPenalties)) (sortMembers members) := by
      refine hs.imp ?_
      intro a b h
      rcases h with h | ⟨e, h | ⟨e2, h⟩⟩
      · exact Or.inl h
      · exact Or.inr (Or.inl ⟨e, h⟩)
      · exact Or.inr (Or.inr ⟨e, e2, h⟩)
    unfold buildLeaderboard
    exact (List.pairwise_map.mpr hp).chain'
  · rfl

/-- C4: when the client is ready and the durable `GET` succeeds but yields
no live value, `getLeaderboardCache` answers absent with the state
untouched — the Fallback Store is not consulted. -/
theorem C4_genuine_miss_returns_absent (env : RedisEnv) (st : CacheState)
    (now : Nat) (challengeId : String) (hready : env.ready = true)
    (hget : env.getFails = false)
    (hmiss : redisLive st now (buildKey challengeId) = none) :
    getLeaderboardCache env st now challengeId = .ok (none, st) := by
  simp [getLeaderboardCache, redisGet, hready, hget, hmiss]

/-- Witness for C4 at a concrete state whose fallback store does hold a
fresh value for the challenge: the durable miss still answers absent. -/
theorem C4_witness :
    envUp.ready = true ∧ envUp.getFails = false ∧
    redisLive stMem 0 (buildKey ("c1")) = none ∧
    (memoryGet stMem 0 (buildKey ("c1"))).1 = some demoEntries ∧
    getLeaderboardCache envUp stMem 0 ("c1") = .ok (none, stMem) :=
  ⟨rfl, rfl, by decide, by decide,
    C4_genuine_miss_returns_absent envUp stMem 0 ("c1") rfl rfl (by decide)⟩

/-- C6 counterexample: with the durable store holding a malformed payload
for challenge `c1` and the fallback store holding `demoEntries`,
`getLeaderboardCache` returns the fallback value, not absent — the claim's
"returning absent" is false as stated. -/
theorem C6_counterexample :
    lbValue envUp stMalformed 0 ("c1") = .ok (some demoEntries) ∧
    some demoEntries ≠ (none : Option EntryList) := by
  exact ⟨by decide, by decide⟩

/-- C6 (amended): when the durable cache returns a stored payload that fails
to deserialize, `getLeaderboardCache` treats the durable tier as missed and
falls through to the Fallback Store — returning its value when present and
absent otherwise — rather than raising the parse error to the caller. -/
theorem C6_malformed_payload_falls_back (env : RedisEnv) (st : CacheState)
    (now : Nat) (id : String) (hready : env.ready = true)
    (hget : env.getFails = false)
    (hmal : redisLive st now (buildKey id) = some none) :
    getLeaderboardCache env st now id = .ok (memoryGet st now (buildKey id)) := by
  simp [getLeaderboardCache, redisGet, hready, hget, hmal, jsonParse,
    memoryFallback_eq]

/-- Witness for the amended C6 at the concrete malformed-payload state. -/
theorem C6_witness :
    envUp.ready = true ∧ envUp.getFails = false ∧
    redisLive stMalformed 0 (buildKey ("c1")) = some none ∧
    getLeaderboardCache envUp stMalformed 0 ("c1") =
      .ok (memoryGet stMalformed 0 (buildKey ("c1"))) :=
  ⟨rfl, rfl, by decide,
    C6_malformed_payload_falls_back envUp stMalformed 0 ("c1") rfl rfl (by decide)⟩

/-- C7: the reconnection policy yields delay min(attempt × 500, 2000) ms for
the retried attempts (1 ↦ 500, 2 ↦ 1000, 3 ↦ 1500), schedules no retry for
any attempt beyond the third (gives up permanently), and while no `connect`
event ever fires afterwards the readiness flag remains false. -/
theorem C7_reconnection_policy :
    (∀ t, 1 ≤ t → t ≤ 3 → retryStrategy t = some (min (t * 500) 2000)) ∧
    retryStrategy 1 = some 500 ∧ retryStrategy 2 = some 1000 ∧
    retryStrategy 3 = some 1500 ∧
    (∀ t, 3 < t → retryStrategy t = none) ∧
    (∀ (clientExists : Bool) (es : List ConnEvent), ConnEvent.connect ∉ es →
      isRedisReady clientExists (isConnectedAfter false es) = false) := by
  refine ⟨?_, rfl, rfl, rfl, ?_, ?_⟩
  · intro t h1 h3
    unfold retryStrategy
    rw [if_neg (by omega)]
  · intro t ht
    unfold retryStrategy
    rw [if_pos (by omega)]
  · have hconn : ∀ es : List ConnEvent, ConnEvent.connect ∉ es →
        isConnectedAfter false es = false := by
      intro es
      induction es with
      | nil => intro _; rfl
      | cons e tl ih =>
        intro h
        rcases e with _ | _ | _
        · exact absurd (List.mem_cons_self _ _) h
        · exact ih fun hm => h (List.mem_cons_of_mem _ hm)
        · exact ih fun hm => h (List.mem_cons_of_mem _ hm)
    intro c es h
    rw [isRedisReady, hconn es h, Bool.and_false]

/-- C5: the completion rate always lies in [0, 100], equals 0 when
totalDays = 0, equals round(100 × completedDays / totalDays, 2) (as rendered
by `toFixed(2)`) when totalDays > 0, and a member with zero DailyResults
yields completedDays = 0, totalDays = 0, completionRate = 0 — with no
division by zero — in both the leaderboard ranking and the
challenge-progress aggregation. -/
theorem C5_completion_rate (m : Membership) (rs : List DailyResult) :
    0 ≤ rawRate (completedCount rs) rs.length ∧
    rawRate (completedCount rs) rs.length ≤ 100 ∧
    0 ≤ round2 (rawRate (completedCount rs) rs.length) ∧
    round2 (rawRate (completedCount rs) rs.length) ≤ 100 ∧
    (rs.length = 0 → rawRate (completedCount rs) rs.length = 0) ∧
    (0 < rs.length →
      rawRate (completedCount rs) rs.length =
        100 * (completedCount rs : ℚ) / (rs.length : ℚ) ∧
      round2 (rawRate (completedCount rs) rs.length) =
        round2 (100 * (completedCount rs : ℚ) / (rs.length : ℚ))) ∧
    (rs = [] → completedCount rs = 0 ∧ rs.length = 0 ∧
      rawRate (completedCount rs) rs.length = 0) ∧
    (mkLeaderboardEntry m rs).completionRate =
      toFixed2 (rawRate (completedCount rs) rs.length) ∧
    (progressStats m rs).completionRate =
      toFixed2 (rawRate (completedCount rs) rs.length) ∧
    (mkLeaderboardEntry m rs).completedDays = completedCount rs ∧
    (mkLeaderboardEntry m rs).totalDays = rs.length ∧
    (progressStats m rs).completedDays = completedCount rs ∧
    (progressStats m rs).totalDays = rs.length := by
  have hle := completedCount_le rs
  refine ⟨rawRate_nonneg _ _, rawRate_le_100 hle, round2_nonneg (rawRate_nonneg _ _),
    round2_le_100 (rawRate_le_100 hle), ?_, ?_, ?_, rfl, rfl, rfl, rfl, rfl, rfl⟩
  · intro h0
    unfold rawRate
    rw [if_neg (by omega)]
  · intro ht
    have he : rawRate (completedCount rs) rs.length =
        100 * (completedCount rs : ℚ) / (rs.length : ℚ) := by
      unfold rawRate
      rw [if_pos ht]
      ring
    exact ⟨he, by rw [he]⟩
  · intro h
    subst h
    exact ⟨rfl, rfl, rfl⟩

/-- Witness for C5 at a concrete member with zero daily results. -/
theorem C5_witness :
    0 ≤ rawRate (completedCount ([] : List DailyResult))
        (List.length ([] : List DailyResult)) ∧
    (mkLeaderboardEntry ⟨"alice", "alice_lc", 5, 10, 2⟩ []).completionRate =
      toFixed2 (rawRate (completedCount ([] : List DailyResult))
        (List.length ([] : List DailyResult))) :=
  ⟨(C5_completion_rate ⟨"alice", "alice_lc", 5, 10, 2⟩ []).1,
   (C5_completion_rate ⟨"alice", "alice_lc", 5, 10, 2⟩ []).2.2.2.2.2.2.2.1⟩

/-- C10: at the public boundary the completionRate field is the decimal
string rendering of the rate with exactly two fractional digits ("0.00" when
totalDays = 0), not a numeric value, in both the leaderboard entry and the
progress stats block, while completedDays, totalDays and failedDays remain
numeric counts. -/
theorem C10_completion_rate_is_string (m : Membership) (rs : List DailyResult) :
    (mkLeaderboardEntry m rs).completionRate =
      toFixed2 (rawRate (completedCount rs) rs.length) ∧
    (progressStats m rs).completionRate =
      toFixed2 (rawRate (completedCount rs) rs.length) ∧
    (∃ intPart fracPart : String,
      toFixed2 (rawRate (completedCount rs) rs.length) =
        intPart ++ "." ++ fracPart ∧ fracPart.length = 2) ∧
    (mkLeaderboardEntry m []).completionRate = "0.00" ∧
    (progressStats m []).completionRate = "0.00" ∧
    (mkLeaderboardEntry m rs).completedDays = completedCount rs ∧
    (mkLeaderboardEntry m rs).totalDays = rs.length ∧
    (progressStats m rs).failedDays = rs.length - completedCount rs := by
  refine ⟨rfl, rfl, ?_, ?_, ?_, rfl, rfl, rfl⟩
  · refine ⟨toString ((roundCents (rawRate (completedCount rs) rs.length)).toNat / 100),
      pad2 ((roundCents (rawRate (completedCount rs) rs.length)).toNat % 100), rfl, ?_⟩
    exact pad2_length_two _ (Nat.mod_lt _ (by norm_num))
  · show toFixed2 (rawRate (completedCount ([] : List DailyResult))
      (List.length ([] : List DailyResult))) = "0.00"
    decide
  · show toFixed2 (rawRate (completedCount ([] : List DailyResult))
      (List.length ([] : List DailyResult))) = "0.00"
    decide

/-- Witness for C7 at concrete attempt numbers and a concrete
connect-free event trace. -/
theorem C7_witness :
    (1 ≤ 2 ∧ 2 ≤ 3 ∧ retryStrategy 2 = some (min (2 * 500) 2000)) ∧
    (3 < 4 ∧ retryStrategy 4 = none) ∧
    (ConnEvent.connect ∉ [ConnEvent.error, ConnEvent.close] ∧
      isRedisReady true
        (isConnectedAfter false [ConnEvent.error, ConnEvent.close]) = false) :=
  ⟨⟨by decide, by decide, C7_reconnection_policy.1 2 (by decide) (by decide)⟩,
   ⟨by decide, C7_reconnection_policy.2.2.2.2.1 4 (by decide)⟩,
   ⟨by decide, C7_reconnection_policy.2.2.2.2.2 true
      [ConnEvent.error, ConnEvent.close] (by decide)⟩⟩

/-- A pointwise reading of the fallback value when the key is present. -/
theorem memoryGet_fst_of (st : CacheState) (now : Nat) (key : String) (e : MemEntry)
    (h : st.memoryCache key = some e) :
    (memoryGet st now key).1 = if now > e.expiresAt then none else some e.data := by
  unfold memoryGet
  rw [h]
  by_cases hx : now > e.expiresAt <;> simp [hx]

/-- C1: with the durable cache unavailable for an operation — client not
ready, or the respective durable command throwing — `getLeaderboardCache`,
`setLeaderboardCache` and `invalidateLeaderboardCache` all complete
successfully using only the Fallback Store and never surface an error: the
get answers exactly the Fallback Store's value (in particular its value when
one is present), and no call changes the durable store. -/
theorem C1_graceful_degradation (env : RedisEnv) (st : CacheState) (now : Nat)
    (id : String) (E : EntryList) (ttl : Nat) :
    (env.ready = false ∨ env.getFails = true →
      getLeaderboardCache env st now id = .ok (memoryGet st now (buildKey id)) ∧
      (getLeaderboardCache env st now id).isOk = true ∧
      (memoryGet st now (buildKey id)).2.redisStore = st.redisStore) ∧
    (env.ready = false ∨ env.setFails = true →
      setLeaderboardCache env st now id E ttl =
        .ok (memorySet st now (buildKey id) E ttl) ∧
      (memorySet st now (buildKey id) E ttl).redisStore = st.redisStore ∧
      (memorySet st now (buildKey id) E ttl).memoryCache (buildKey id) =
        some ⟨E, now + ttl * 1000⟩) ∧
    (env.ready = false ∨ env.delFails = true →
      invalidateLeaderboardCache env st id = .ok (memoryDel st (buildKey id)) ∧
      (memoryDel st (buildKey id)).redisStore = st.redisStore ∧
      (memoryDel st (buildKey id)).memoryCache (buildKey id) = none) := by
  refine ⟨?_, ?_, ?_⟩
  · intro h
    have hg := get_degraded env st now id h
    refine ⟨hg, by rw [hg]; rfl, ?_⟩
    unfold memoryGet
    rcases hm : st.memoryCache (buildKey id) with _ | e
    · rfl
    · by_cases hx : now > e.expiresAt <;> simp [hx]
  · intro h
    refine ⟨?_, rfl, by simp [memorySet]⟩
    rw [set_state]
    have hred : (fun k =>
        if env.ready = true ∧ env.setFails = false ∧ k = buildKey id then
          some (jsonStringify E, now + ttl * 1000)
        else st.redisStore k) = st.redisStore := by
      funext k
      rcases h with h | h <;> simp [h]
    rw [hred]
    rfl
  · intro h
    refine ⟨?_, rfl, by simp [memoryDel]⟩
    rw [invalidate_state]
    have hred : (fun k =>
        if env.ready = true ∧ env.delFails = false ∧ k = buildKey id then none
        else st.redisStore k) = st.redisStore := by
      funext k
      rcases h with h | h <;> simp [h]
    rw [hred]
    rfl

/-- Witness for C1: ready client whose every command throws, with a fresh
fallback value for `c1` — all three operations succeed from
the Fallback Store alone, the get answering the fallback value. -/
theorem C1_witness :
    (envAllFail.ready = false ∨ envAllFail.getFails = true) ∧
    getLeaderboardCache envAllFail stMem 0 ("c1") =
      .ok (memoryGet stMem 0 (buildKey ("c1"))) ∧
    (memoryGet stMem 0 (buildKey ("c1"))).1 = some demoEntries ∧
    setLeaderboardCache envAllFail stMem 0 ("c1") demoEntries 60 =
      .ok (memorySet stMem 0 (buildKey ("c1")) demoEntries 60) ∧
    invalidateLeaderboardCache envAllFail stMem ("c1") =
      .ok (memoryDel stMem (buildKey ("c1"))) :=
  ⟨Or.inr rfl,
   ((C1_graceful_degradation envAllFail stMem 0 ("c1") demoEntries 60).1 (Or.inr rfl)).1,
   by decide,
   ((C1_graceful_degradation envAllFail stMem 0 ("c1") demoEntries 60).2.1 (Or.inr rfl)).1,
   ((C1_graceful_degradation envAllFail stMem 0 ("c1") demoEntries 60).2.2 (Or.inr rfl)).1⟩

/-- C9: invalidation is idempotent — for every environment and cache state
the call never errors, and repeating it returns the very same state with no
error. -/
theorem C9_invalidate_idempotent (env : RedisEnv) (st : CacheState) (id : String) :
    (invalidateLeaderboardCache env st id).isOk = true ∧
    ∀ st1, invalidateLeaderboardCache env st id = .ok st1 →
      invalidateLeaderboardCache env st1 id = .ok st1 := by
  constructor
  · rw [invalidate_state]
    rfl
  · intro st1 h1
    rw [invalidate_state] at h1
    injection h1 with h1
    subst h1
    rw [invalidate_state]
    congr 2
    · funext k
      by_cases hk : k = buildKey id <;> simp [hk]
    · funext k
      by_cases hc : env.ready = true ∧ env.delFails = false ∧ k = buildKey id <;>
        simp [hc]

/-- Witness for C9: the second invalidation of `c1` answers the
unchanged state with no error. -/
theorem C9_witness :
    invalidateLeaderboardCache envDown (memoryDel stMem (buildKey ("c1"))) ("c1") =
      .ok (memoryDel stMem (buildKey ("c1"))) :=
  (C9_invalidate_idempotent envDown stMem ("c1")).2
    (memoryDel stMem (buildKey ("c1"))) rfl

/-- C8: cache keys are namespaced per challenge — for distinct challenge ids
a ≠ b, writing or invalidating a leaves the value observable for b
unchanged. -/
theorem C8_per_challenge_isolation (env : RedisEnv) (st : CacheState)
    (now now2 : Nat) (a b : String) (E : EntryList) (ttl : Nat) (hab : a ≠ b) :
    (∀ st', setLeaderboardCache env st now a E ttl = .ok st' →
      lbValue env st' now2 b = lbValue env st now2 b) ∧
    (∀ st', invalidateLeaderboardCache env st a = .ok st' →
      lbValue env st' now2 b = lbValue env st now2 b) := by
  have hkey : buildKey b ≠ buildKey a := fun h => hab (buildKey_inj h).symm
  constructor
  · intro st' h
    rw [set_state] at h
    injection h with h
    subst h
    exact lbValue_congr env now2 b (by simp [hkey]) (by simp [hkey])
  · intro st' h
    rw [invalidate_state] at h
    injection h with h
    subst h
    exact lbValue_congr env now2 b (by simp [hkey]) (by simp [hkey])

/-- Witness for C8: writing challenge `c2` does not change what a get for
`c1` observes. -/
theorem C8_witness :
    lbValue envDown (memorySet stMem 0 (buildKey ("c2")) demoEntries 60) 0 ("c1") =
      lbValue envDown stMem 0 ("c1") :=
  (C8_per_challenge_isolation envDown stMem 0 0 ("c2") ("c1") demoEntries 60
      (by decide)).1
    (memorySet stMem 0 (buildKey ("c2")) demoEntries 60) rfl

/-- C3 (amended): after `setLeaderboardCache(id, E, ttl)`, a get performed up
to ttl seconds later (same environment, no intervening writes) returns E and
a get after expiry returns absent, provided the combination "client ready,
durable SET threw, durable GET succeeds" is excluded — in that excluded case
the durable tier answers its own (genuine-miss or stale) state instead of E,
see the counterexample.  The TTL defaults to 60 seconds. -/
theorem C3_ttl_roundtrip (env : RedisEnv) (st : CacheState) (now t : Nat)
    (id : String) (E : EntryList) (ttl : Nat) (st' : CacheState)
    (hset : setLeaderboardCache env st now id E ttl = .ok st')
    (hok : env.ready = false ∨ env.setFails = false ∨ env.getFails = true) :
    DEFAULT_TTL = 60 ∧
    (t ≤ now + ttl * 1000 → lbValue env st' t id = .ok (some E)) ∧
    (now + ttl * 1000 < t → lbValue env st' t id = .ok none) := by
  rw [set_state] at hset
  injection hset with hset
  subst hset
  refine ⟨rfl, ?_, ?_⟩
  · intro ht
    have htn : ¬ t > now + ttl * 1000 := by omega
    rw [lbValue_eq]
    by_cases hr : env.ready = true
    · by_cases hg : env.getFails = true
      · simp [hr, hg, memoryGet, htn]
      · by_cases hs : env.setFails = true
        · rcases hok with h | h | h
          · rw [h] at hr; exact absurd hr (by decide)
          · rw [h] at hs; exact absurd hs (by decide)
          · exact absurd h hg
        · simp [hr, hg, hs, redisLive, jsonStringify, jsonParse, ht]
    · simp [hr, memoryGet, htn]
  · intro ht
    have htn : ¬ t ≤ now + ttl * 1000 := by omega
    rw [lbValue_eq]
    by_cases hr : env.ready = true
    · by_cases hg : env.getFails = true
      · simp [hr, hg, memoryGet, ht]
      · by_cases hs : env.setFails = true
        · rcases hok with h | h | h
          · rw [h] at hr; exact absurd hr (by decide)
          · rw [h] at hs; exact absurd hs (by decide)
          · exact absurd h hg
        · simp [hr, hg, hs, redisLive, jsonStringify, jsonParse, htn]
    · simp [hr, memoryGet, ht]

/-- Witness for the amended C3 with the durable cache down: the value
written for `c1` is readable at exactly the TTL boundary and absent one
millisecond later. -/
theorem C3_witness :
    DEFAULT_TTL = 60 ∧
    lbValue envDown (memorySet emptyState 0 (buildKey ("c1")) demoEntries 60)
      60000 ("c1") = .ok (some demoEntries) ∧
    lbValue envDown (memorySet emptyState 0 (buildKey ("c1")) demoEntries 60)
      60001 ("c1") = .ok none :=
  ⟨(C3_ttl_roundtrip envDown emptyState 0 60000 ("c1") demoEntries 60
      (memorySet emptyState 0 (buildKey ("c1")) demoEntries 60) rfl (Or.inl rfl)).1,
   (C3_ttl_roundtrip envDown emptyState 0 60000 ("c1") demoEntries 60
      (memorySet emptyState 0 (buildKey ("c1")) demoEntries 60) rfl (Or.inl rfl)).2.1
     (by omega),
   (C3_ttl_roundtrip envDown emptyState 0 60001 ("c1") demoEntries 60
      (memorySet emptyState 0 (buildKey ("c1")) demoEntries 60) rfl (Or.inl rfl)).2.2
     (by omega)⟩

/-- C3 counterexample: ready client whose durable SET throws while GET
works — the write reaches only the Fallback Store, and a get one millisecond
later (well within the TTL) answers the durable tier's genuine miss, absent,
instead of E. -/
theorem C3_counterexample :
    setLeaderboardCache envSetThrows emptyState 0 ("c1") demoEntries 60 =
      .ok (memorySet emptyState 0 (buildKey ("c1")) demoEntries 60) ∧
    (1 : Nat) ≤ 0 + 60 * 1000 ∧
    lbValue envSetThrows (memorySet emptyState 0 (buildKey ("c1")) demoEntries 60)
      1 ("c1") = .ok none ∧
    (Except.ok none : Except Unit (Option EntryList)) ≠ .ok (some demoEntries) :=
  ⟨rfl, by decide, by decide, by decide⟩

end CodeDuel
